import Mathlib

/-!
Shallow embedding of the client logic of the Dutch coalition builder
(src/static/js/main.js).  Party coordinates are modelled as rationals,
seat counts as naturals, and the mutable page state (the `exclusions`
and `inclusions` arrays, the roster `parties`) as explicit values that
the embedded functions thread through.
-/

namespace CoalitionBuilder

/-- A party of the active roster, as delivered by the server:
name, seat count and the two ideological coordinates. -/
structure Party where
  name : String
  seats : Nat
  economic : ℚ
  social : ℚ
  deriving DecidableEq, Repr

/-- Total seat count of a roster.  Modelled from the spec: the server
code that computes the `total_seats` field of its responses is not part
of src/, and the spec defines it as the sum of all parties seat counts. -/
def totalSeats (parties : List Party) : Nat :=
  (parties.map Party.seats).sum

/-- The seat sum computed by `updateVisualization` (main.js line 650):
`parties.filter(p => selectedParties.includes(p.name)).reduce((sum, p) => sum + p.seats, 0)`. -/
def coalitionSeats (parties : List Party) (selected : List String) : Nat :=
  (parties.filter (fun p => selected.contains p.name)).foldl
    (fun sum p => sum + p.seats) 0

/-- Whether `updateVisualization` (main.js line 656) renders the
selection as a majority: `coalitionSeats >= 76`, a fixed constant. -/
def displaysMajority (parties : List Party) (selected : List String) : Bool :=
  76 ≤ coalitionSeats parties selected

/-- The state of the two constraint arrays of the page,
`exclusions` and `inclusions` (main.js lines 2 and 3). -/
structure ConstraintState where
  exclusions : List (List String)
  inclusions : List (List String)
  deriving DecidableEq, Repr

/-- Lexicographic comparison of two character sequences, the order the
default JavaScript string comparison induces (code unit by code unit;
identical to code point order on the basic multilingual plane). -/
def charListLt : List Char → List Char → Bool
  | _, [] => false
  | [], _ :: _ => true
  | a :: as, b :: bs =>
    if a < b then true else if b < a then false else charListLt as bs

/-- Lexicographic comparison of two strings. -/
def strLt (a b : String) : Bool :=
  charListLt a.data b.data

/-- `[party1, party2].sort()` on a two element array: the default
JavaScript comparator orders the strings ascending, so the pair is
swapped exactly when the second compares below the first. -/
def sortPair (a b : String) : List String :=
  if strLt b a then [b, a] else [a, b]

/-- `constraint.join('-')`: the canonical string used by `addExclusion`
and `addInclusion` to compare constraints. -/
def keyOf (c : List String) : String :=
  String.intercalate "-" c

/-- The constraint value `addExclusion` builds from the two dropdown
selections (main.js lines 718 to 729); `none` on the rejected paths
(no first party, or two identical parties). -/
def proposedExclusion (party1 party2 : String) : Option (List String) :=
  if party1 = "" then none
  else if party2 = "" then some [party1]
  else if party1 = party2 then none
  else some (sortPair party1 party2)

/-- `addExclusion` (main.js lines 708 to 749).  Returns the state of the
two constraint arrays after the call together with `true` exactly when
the exclusion was appended (every `alert`-and-return path yields `false`). -/
def addExclusion (party1 party2 : String) (s : ConstraintState) :
    ConstraintState × Bool :=
  match proposedExclusion party1 party2 with
  | none => (s, false)
  | some exclusion =>
    if s.exclusions.any (fun e => keyOf e = keyOf exclusion) then (s, false)
    else if s.inclusions.any (fun i => keyOf i = keyOf exclusion) then (s, false)
    else ({ s with exclusions := s.exclusions ++ [exclusion] }, true)

/-- `addInclusion` (main.js lines 751 to 784), analogously. -/
def addInclusion (party1 party2 : String) (s : ConstraintState) :
    ConstraintState × Bool :=
  if party1 = "" ∨ party2 = "" then (s, false)
  else if party1 = party2 then (s, false)
  else
    if s.inclusions.any (fun i => keyOf i = keyOf (sortPair party1 party2)) then
      (s, false)
    else if s.exclusions.any (fun e => keyOf e = keyOf (sortPair party1 party2)) then
      (s, false)
    else ({ s with inclusions := s.inclusions ++ [sortPair party1 party2] }, true)

/-- `removeExclusion` (main.js line 815): `exclusions.splice(index, 1)`. -/
def removeExclusion (index : Nat) (s : ConstraintState) : ConstraintState :=
  { s with exclusions := s.exclusions.eraseIdx index }

/-- `removeInclusion` (main.js line 821): `inclusions.splice(index, 1)`. -/
def removeInclusion (index : Nat) (s : ConstraintState) : ConstraintState :=
  { s with inclusions := s.inclusions.eraseIdx index }

/-- One user action on the constraint lists. -/
inductive ConstraintOp where
  | addExc (party1 party2 : String)
  | addInc (party1 party2 : String)
  | removeExc (index : Nat)
  | removeInc (index : Nat)
  deriving DecidableEq, Repr

/-- Effect of one action on the constraint state. -/
def applyOp (op : ConstraintOp) (s : ConstraintState) : ConstraintState :=
  match op with
  | .addExc p1 p2 => (addExclusion p1 p2 s).1
  | .addInc p1 p2 => (addInclusion p1 p2 s).1
  | .removeExc i => removeExclusion i s
  | .removeInc i => removeInclusion i s

/-- Effect of a sequence of actions, first action first. -/
def applyOps (ops : List ConstraintOp) (s : ConstraintState) : ConstraintState :=
  ops.foldl (fun s op => applyOp op s) s

/-- A well-formed stored exclusion: one name, or two distinct names in
ascending order. -/
def excEntryOk (c : List String) : Bool :=
  match c with
  | [_] => true
  | [a, b] => strLt a b
  | _ => false

/-- A well-formed stored inclusion: exactly two distinct names in
ascending order. -/
def incEntryOk (c : List String) : Bool :=
  match c with
  | [a, b] => strLt a b
  | _ => false

/-- The structural invariant of the constraint state claimed by the spec. -/
def stateOk (s : ConstraintState) : Bool :=
  s.exclusions.all excEntryOk && s.inclusions.all incEntryOk

/-- Equality of two constraints read as unordered name sets (the
comparison the spec describes, as opposed to the string comparison the
code performs). -/
def sameNameSet (a b : List String) : Bool :=
  a.all (fun x => b.contains x) && b.all (fun x => a.contains x)

/-- Observable outcome of one call to `updateCoalitions`
(main.js lines 827 to 858): the `/api/coalitions` request body when one
is sent, whether the range alert fired, and the value left in the
min-parties input field. -/
structure CoalitionsCall where
  request : Option (Int × Int)
  alerted : Bool
  minInputValue : Int
  deriving DecidableEq, Repr

/-- `updateCoalitions` on the two parsed party-count bounds: when
`minParties > maxParties` it alerts, writes `maxParties` back into the
min-parties input and returns without fetching; otherwise it posts
`{min_parties, max_parties}` to `/api/coalitions`. -/
def updateCoalitions (minParties maxParties : Int) : CoalitionsCall :=
  if minParties > maxParties then
    { request := none, alerted := true, minInputValue := maxParties }
  else
    { request := some (minParties, maxParties), alerted := false,
      minInputValue := minParties }

/-- The shared option list built by `populateDropdowns`
(main.js line 119): names of the parties with `seats > 0`. -/
def dropdownOptions (parties : List Party) : List String :=
  (parties.filter (fun p => p.seats > 0)).map Party.name

/-- The four constraint-selection dropdowns, each filled with
`dropdownOptions` (main.js lines 121 to 124). -/
structure Dropdowns where
  excludeParty1 : List String
  excludeParty2 : List String
  includeParty1 : List String
  includeParty2 : List String
  deriving DecidableEq, Repr

/-- `populateDropdowns` (main.js lines 118 to 125). -/
def populateDropdowns (parties : List Party) : Dropdowns :=
  { excludeParty1 := dropdownOptions parties
    excludeParty2 := dropdownOptions parties
    includeParty1 := dropdownOptions parties
    includeParty2 := dropdownOptions parties }

/-- The rows of the party table built by `populatePartyTable`
(main.js lines 97 to 116): one `(name, seats)` row per roster party. -/
def partyTableRows (parties : List Party) : List (String × Nat) :=
  parties.map (fun p => (p.name, p.seats))

/-- The parties `updateSpectrum` renders on the map (main.js line 415):
the loop skips every party with `seats === 0`. -/
def spectrumParties (parties : List Party) : List Party :=
  parties.filter (fun p => p.seats ≠ 0)

/-- The horizontal pixel position `updateSpectrum` assigns
(main.js line 418), with the fixed padding of 50:
`x = padding + ((economic + 1) / 2) * usableWidth`. -/
def spectrumX (containerWidth economic : ℚ) : ℚ :=
  50 + ((economic + 1) / 2) * (containerWidth - 50 * 2)

/-- The vertical pixel position `updateSpectrum` assigns
(main.js line 419): `y = padding + ((-social + 1) / 2) * usableHeight`. -/
def spectrumY (containerHeight social : ℚ) : ℚ :=
  50 + ((-social + 1) / 2) * (containerHeight - 50 * 2)

/-- `Math.max(padding, Math.min(bound - padding, v))`, the pixel clamp
used by `handleMouseUp` (main.js lines 547 and 548). -/
def constrainPix (bound v : ℚ) : ℚ :=
  max 50 (min (bound - 50) v)

/-- Body of the `/api/update_position` request. -/
structure PositionUpdateRequest where
  party_name : String
  economic : ℚ
  social : ℚ
  deriving DecidableEq, Repr

/-- The request `handleMouseUp` builds from the release position
(main.js lines 543 to 568): clamp the pixel coordinates into
`[padding, dimension - padding]`, then convert back to the spectrum
coordinates in `[-1, 1]`, with the vertical axis flipped. -/
def mouseUpRequest (name : String) (width height mouseX mouseY : ℚ) :
    PositionUpdateRequest :=
  let constrainedX := constrainPix width mouseX
  let constrainedY := constrainPix height mouseY
  let usableWidth := width - 50 * 2
  let usableHeight := height - 50 * 2
  { party_name := name
    economic := ((constrainedX - 50) / usableWidth) * 2 - 1
    social := -(((constrainedY - 50) / usableHeight) * 2 - 1) }

/-- A server response carrying a full roster (`/api/update_position`
and `/api/change_poll` both answer `{success, parties, ...}`). -/
structure RosterResponse where
  success : Bool
  parties : List Party
  deriving DecidableEq, Repr

/-- The drag state fields `handleMouseUp` consults. -/
structure DragState where
  isDragging : Bool
  dragParty : Option Party
  deriving DecidableEq, Repr

/-- The client state the roster-replacing handlers touch. -/
structure ClientState where
  parties : List Party
  deriving DecidableEq, Repr

/-- `handleMouseUp` (main.js lines 536 to 600), with the network
modelled as a function from the posted request to the server response.
Returns the client state after the call and `true` exactly when
`updateCoalitions` was re-invoked (the `data.success` branch). -/
def handleMouseUp (drag : DragState) (width height mouseX mouseY : ℚ)
    (server : PositionUpdateRequest → RosterResponse)
    (s : ClientState) : ClientState × Bool :=
  match drag.isDragging, drag.dragParty with
  | true, some party =>
    if (server (mouseUpRequest party.name width height mouseX mouseY)).success then
      ({ parties :=
          (server (mouseUpRequest party.name width height mouseX mouseY)).parties },
        true)
    else (s, false)
  | _, _ => (s, false)

/-- `changePoll` (main.js lines 60 to 87), with the network modelled as
a function from the selected poll name to the server response.  Returns
the client state after the call and `true` exactly when
`updateCoalitions` was re-invoked. -/
def changePoll (selectedPoll : String)
    (server : String → RosterResponse)
    (s : ClientState) : ClientState × Bool :=
  if selectedPoll = "" then (s, false)
  else
    if (server selectedPoll).success then
      ({ parties := (server selectedPoll).parties }, true)
    else (s, false)

/-! ## Theorems -/

/-- Helper: the lexicographic comparison relates every pair of distinct
character lists one way or the other. -/
theorem charListLt_of_ne (a b : List Char) (h : a ≠ b) :
    charListLt a b = true ∨ charListLt b a = true := by
  induction a generalizing b with
  | nil =>
    cases b with
    | nil => exact absurd rfl h
    | cons y ys => left; rfl
  | cons x xs ih =>
    cases b with
    | nil => right; rfl
    | cons y ys =>
      rcases lt_trichotomy x y with hxy | hxy | hxy
      · left
        simp [charListLt, hxy]
      · subst hxy
        have hne : xs ≠ ys := fun he => h (by rw [he])
        rcases ih ys hne with htail | htail
        · left
          simp [charListLt, lt_irrefl, htail]
        · right
          simp [charListLt, lt_irrefl, htail]
      · right
        simp [charListLt, hxy]

/-- Helper: distinct strings compare one way or the other. -/
theorem strLt_of_ne (a b : String) (h : a ≠ b) :
    strLt a b = true ∨ strLt b a = true :=
  charListLt_of_ne a.data b.data (fun hd => h (String.ext hd))

/-- Helper: sorting a pair of distinct names yields a well-formed
two-name entry with the names strictly ascending. -/
theorem incEntryOk_sortPair (a b : String) (h : a ≠ b) :
    incEntryOk (sortPair a b) = true := by
  unfold sortPair
  split_ifs with hb
  · simpa [incEntryOk] using hb
  · rcases strLt_of_ne a b h with hab | hba
    · simpa [incEntryOk] using hab
    · exact absurd hba (by simp [hb])

/-- Helper: a two-name inclusion entry is also a well-formed exclusion
entry. -/
theorem excEntryOk_of_incEntryOk (c : List String)
    (h : incEntryOk c = true) : excEntryOk c = true := by
  match c with
  | [] => simp [incEntryOk] at h
  | [_] => rfl
  | [a, b] => exact h
  | _ :: _ :: _ :: _ => simp [incEntryOk] at h

/-- Helper: whatever `addExclusion` proposes is a well-formed stored
exclusion. -/
theorem proposedExclusion_ok (party1 party2 : String) (c : List String)
    (h : proposedExclusion party1 party2 = some c) :
    excEntryOk c = true := by
  unfold proposedExclusion at h
  split_ifs at h with hp1 hp2 heq
  · cases h
    rfl
  · cases h
    exact excEntryOk_of_incEntryOk _ (incEntryOk_sortPair _ _ heq)

/-- Helper: removing one entry from a list keeps every `all` predicate. -/
theorem all_eraseIdx {α : Type} (l : List α) (i : Nat) (p : α → Bool)
    (h : l.all p = true) : (l.eraseIdx i).all p = true := by
  simp only [List.all_eq_true] at h ⊢
  exact fun x hx => h x ((List.eraseIdx_sublist l i).subset hx)

/-- Helper: every single user action preserves the structural invariant
of the constraint lists. -/
theorem stateOk_applyOp (op : ConstraintOp) (s : ConstraintState)
    (h : stateOk s = true) : stateOk (applyOp op s) = true := by
  have hexc : s.exclusions.all excEntryOk = true := by
    simp only [stateOk, Bool.and_eq_true] at h
    exact h.1
  have hinc : s.inclusions.all incEntryOk = true := by
    simp only [stateOk, Bool.and_eq_true] at h
    exact h.2
  cases op with
  | addExc p1 p2 =>
    simp only [applyOp]
    unfold addExclusion
    rcases hp : proposedExclusion p1 p2 with _ | c
    · exact h
    · dsimp only
      split_ifs
      · exact h
      · exact h
      · simp only [stateOk, Bool.and_eq_true]
        refine ⟨?_, hinc⟩
        simp only [List.all_eq_true] at hexc ⊢
        intro x hx
        rcases List.mem_append.mp hx with hx | hx
        · exact hexc x hx
        · rcases List.mem_singleton.mp hx with rfl
          exact proposedExclusion_ok p1 p2 _ hp
  | addInc p1 p2 =>
    simp only [applyOp]
    unfold addInclusion
    split_ifs with hp hp2
    · exact h
    · exact h
    · exact h
    · exact h
    · simp only [stateOk, Bool.and_eq_true]
      refine ⟨hexc, ?_⟩
      simp only [List.all_eq_true] at hinc ⊢
      intro x hx
      rcases List.mem_append.mp hx with hx | hx
      · exact hinc x hx
      · rcases List.mem_singleton.mp hx with rfl
        exact incEntryOk_sortPair p1 p2 hp2
  | removeExc i =>
    simp only [applyOp, removeExclusion, stateOk, Bool.and_eq_true]
    exact ⟨all_eraseIdx _ _ _ hexc, hinc⟩
  | removeInc i =>
    simp only [applyOp, removeInclusion, stateOk, Bool.and_eq_true]
    exact ⟨hexc, all_eraseIdx _ _ _ hinc⟩

/-- Helper: the invariant is preserved along any action sequence. -/
theorem stateOk_applyOps (ops : List ConstraintOp) (s : ConstraintState)
    (h : stateOk s = true) : stateOk (applyOps ops s) = true := by
  induction ops generalizing s with
  | nil => exact h
  | cons op rest ih => exact ih _ (stateOk_applyOp op s h)

/-- C5: starting from the empty constraint state, any sequence of add
and remove actions leaves every stored exclusion with 1 or 2 distinct
names, every stored inclusion with exactly 2 distinct names, and every
2-name entry of either kind with its names in ascending order. -/
theorem c5_constraintInvariant (ops : List ConstraintOp) :
    stateOk (applyOps ops ⟨[], []⟩) = true :=
  stateOk_applyOps ops ⟨[], []⟩ rfl

/-- C1 counterexample: on a dataset whose total is 10 seats, selecting a
6-seat party is a majority by the stated rule (6 > 10 / 2) but
`updateVisualization` does not report it as one, since its threshold is
the fixed constant 76. -/
theorem c1_counterexample :
    ¬ (displaysMajority [⟨"A", 6, 0, 0⟩, ⟨"B", 4, 0, 0⟩] ["A"] = true ↔
        totalSeats [⟨"A", 6, 0, 0⟩, ⟨"B", 4, 0, 0⟩] / 2
          < coalitionSeats [⟨"A", 6, 0, 0⟩, ⟨"B", 4, 0, 0⟩] ["A"]) := by
  decide

/-- C1 (amended): `updateVisualization` reports the selection as a
majority exactly when its summed seats reach the fixed constant 76; for
datasets whose total seat count is 150 (the Dutch chamber size every
bundled dataset uses) this coincides with seats > totalSeats / 2, but
the threshold itself is not derived from the dataset. -/
theorem c1_fixedThreshold (parties : List Party) (selected : List String)
    (h : totalSeats parties = 150) :
    displaysMajority parties selected = true ↔
      totalSeats parties / 2 < coalitionSeats parties selected := by
  rw [h]
  simp only [displaysMajority, decide_eq_true_eq]
  omega

/-- Witness for C1: a two-party dataset totalling 150 seats, on which an
80-seat selection is displayed as a majority and indeed exceeds half. -/
theorem c1_fixedThreshold_witness :
    totalSeats [⟨"A", 80, 0, 0⟩, ⟨"B", 70, 0, 0⟩] = 150 ∧
    (displaysMajority [⟨"A", 80, 0, 0⟩, ⟨"B", 70, 0, 0⟩] ["A"] = true ↔
      totalSeats [⟨"A", 80, 0, 0⟩, ⟨"B", 70, 0, 0⟩] / 2
        < coalitionSeats [⟨"A", 80, 0, 0⟩, ⟨"B", 70, 0, 0⟩] ["A"]) :=
  ⟨by decide, c1_fixedThreshold _ _ (by decide)⟩

/-- C2 counterexample: with the single-party exclusion of the party
named GL-PvdA on record (a real party name the source special-cases),
the proposed two-party exclusion of distinct parties GL and PvdA is
rejected, although as an unordered name set it duplicates no existing
entry of either kind — the code compares hyphen-joined strings, and
both constraints join to the same string. -/
theorem c2_counterexample :
    (addExclusion "GL" "PvdA" ⟨[["GL-PvdA"]], []⟩).2 = false ∧
    (addExclusion "GL" "PvdA" ⟨[["GL-PvdA"]], []⟩).1 = ⟨[["GL-PvdA"]], []⟩ ∧
    ("GL" : String) ≠ "" ∧ ("GL" : String) ≠ "PvdA" ∧
    (([["GL-PvdA"]] : List (List String)).all
      (fun e => !sameNameSet ["GL", "PvdA"] e)) = true ∧
    (([] : List (List String)).all
      (fun i => !sameNameSet ["GL", "PvdA"] i)) = true := by
  decide

/-- C2 (amended): over validly selected parties (a nonempty first name,
and distinct names when a second is given) a proposal is rejected if
and only if its hyphen-joined canonical string equals the hyphen-joined
string of an existing entry of either kind; otherwise the canonical
constraint is appended to the corresponding list.  String-key equality
coincides with unordered name-set equality only when no party name
contains a hyphen. -/
theorem c2_stringKeyedDeduplication (party1 party2 : String)
    (s : ConstraintState) (h1 : party1 ≠ "")
    (h2 : party2 ≠ "" → party1 ≠ party2) :
    (∃ c, proposedExclusion party1 party2 = some c) ∧
    (∀ c, proposedExclusion party1 party2 = some c →
      (((addExclusion party1 party2 s).2 = true ↔
          (∀ e ∈ s.exclusions, keyOf e ≠ keyOf c) ∧
          (∀ i ∈ s.inclusions, keyOf i ≠ keyOf c)) ∧
        ((addExclusion party1 party2 s).2 = true →
          (addExclusion party1 party2 s).1
            = ⟨s.exclusions ++ [c], s.inclusions⟩))) ∧
    (party2 ≠ "" →
      (((addInclusion party1 party2 s).2 = true ↔
          (∀ i ∈ s.inclusions, keyOf i ≠ keyOf (sortPair party1 party2)) ∧
          (∀ e ∈ s.exclusions, keyOf e ≠ keyOf (sortPair party1 party2))) ∧
        ((addInclusion party1 party2 s).2 = true →
          (addInclusion party1 party2 s).1
            = ⟨s.exclusions, s.inclusions ++ [sortPair party1 party2]⟩))) := by
  refine ⟨?_, ?_, ?_⟩
  · unfold proposedExclusion
    by_cases hp2 : party2 = ""
    · exact ⟨[party1], by simp [h1, hp2]⟩
    · exact ⟨sortPair party1 party2, by simp [h1, hp2, h2 hp2]⟩
  · intro c hc
    unfold addExclusion
    rw [hc]
    dsimp only
    split_ifs with hx hi
    · simp only [List.any_eq_true, decide_eq_true_eq] at hx
      obtain ⟨e, he, hkey⟩ := hx
      constructor
      · simp only [false_iff, not_and]
        intro hall _
        exact hall e he hkey
      · intro hfalse
        exact absurd hfalse (by simp)
    · simp only [List.any_eq_true, decide_eq_true_eq] at hx hi
      obtain ⟨i, hi2, hkey⟩ := hi
      constructor
      · simp only [false_iff, not_and]
        intro _ hall
        exact absurd (hall i hi2) (by simp [hkey])
      · intro hfalse
        exact absurd hfalse (by simp)
    · simp only [List.any_eq_true, decide_eq_true_eq] at hx hi
      push_neg at hx hi
      constructor
      · simp only [true_iff]
        exact ⟨hx, hi⟩
      · intro _
        rfl
  · intro hp2
    unfold addInclusion
    rw [if_neg (by simp [h1, hp2]), if_neg (h2 hp2)]
    split_ifs with hi hx
    · simp only [List.any_eq_true, decide_eq_true_eq] at hi
      obtain ⟨i, hi2, hkey⟩ := hi
      constructor
      · simp only [false_iff, not_and]
        intro hall _
        exact hall i hi2 hkey
      · intro hfalse
        exact absurd hfalse (by simp)
    · simp only [List.any_eq_true, decide_eq_true_eq] at hi hx
      obtain ⟨e, he, hkey⟩ := hx
      constructor
      · simp only [false_iff, not_and]
        intro _ hall
        exact absurd (hall e he) (by simp [hkey])
      · intro hfalse
        exact absurd hfalse (by simp)
    · simp only [List.any_eq_true, decide_eq_true_eq] at hi hx
      push_neg at hi hx
      constructor
      · simp only [true_iff]
        exact ⟨hi, hx⟩
      · intro _
        rfl

/-- Witness for C2: with an empty constraint state the exclusion of the
distinct parties A and B is accepted and appended. -/
theorem c2_witness :
    (∃ c, proposedExclusion "A" "B" = some c) ∧
    (∀ c, proposedExclusion "A" "B" = some c →
      (((addExclusion "A" "B" ⟨[], []⟩).2 = true ↔
          (∀ e ∈ (⟨[], []⟩ : ConstraintState).exclusions, keyOf e ≠ keyOf c) ∧
          (∀ i ∈ (⟨[], []⟩ : ConstraintState).inclusions, keyOf i ≠ keyOf c)) ∧
        ((addExclusion "A" "B" ⟨[], []⟩).2 = true →
          (addExclusion "A" "B" ⟨[], []⟩).1 = ⟨[] ++ [c], []⟩))) ∧
    (("B" : String) ≠ "" →
      (((addInclusion "A" "B" ⟨[], []⟩).2 = true ↔
          (∀ i ∈ (⟨[], []⟩ : ConstraintState).inclusions,
            keyOf i ≠ keyOf (sortPair "A" "B")) ∧
          (∀ e ∈ (⟨[], []⟩ : ConstraintState).exclusions,
            keyOf e ≠ keyOf (sortPair "A" "B"))) ∧
        ((addInclusion "A" "B" ⟨[], []⟩).2 = true →
          (addInclusion "A" "B" ⟨[], []⟩).1
            = ⟨[], [] ++ [sortPair "A" "B"]⟩))) :=
  c2_stringKeyedDeduplication "A" "B" ⟨[], []⟩ (by decide) (fun _ => by decide)

/-- C3: whenever `addExclusion` or `addInclusion` rejects a proposal,
the constraint state (both lists) is exactly what it was before the
call — every alert-and-return path precedes the push. -/
theorem c3_rejectionLeavesStateUnchanged (party1 party2 : String)
    (s : ConstraintState) :
    ((addExclusion party1 party2 s).2 = false →
      (addExclusion party1 party2 s).1 = s) ∧
    ((addInclusion party1 party2 s).2 = false →
      (addInclusion party1 party2 s).1 = s) := by
  constructor
  · intro hrej
    unfold addExclusion at hrej ⊢
    rcases hp : proposedExclusion party1 party2 with _ | exclusion
    · rfl
    · rw [hp] at hrej
      dsimp only at hrej ⊢
      split_ifs at hrej ⊢ <;> rfl
  · intro hrej
    unfold addInclusion at hrej ⊢
    split_ifs at hrej ⊢ <;> rfl

/-- Witness for C3: rejecting a duplicate exclusion leaves the state
unchanged. -/
theorem c3_witness :
    (addExclusion "A" "B" ⟨[["A", "B"]], []⟩).2 = false ∧
    (addExclusion "A" "B" ⟨[["A", "B"]], []⟩).1 = ⟨[["A", "B"]], []⟩ :=
  ⟨by decide, (c3_rejectionLeavesStateUnchanged "A" "B" _).1 (by decide)⟩

/-- C4: `updateCoalitions` posts to `/api/coalitions` exactly when the
entered minimum does not exceed the maximum; otherwise it alerts,
writes the maximum back into the min-parties input, and sends nothing. -/
theorem c4_rangeValidation (minParties maxParties : Int) :
    ((updateCoalitions minParties maxParties).request
        = some (minParties, maxParties) ↔ minParties ≤ maxParties) ∧
    (maxParties < minParties →
      (updateCoalitions minParties maxParties).request = none ∧
      (updateCoalitions minParties maxParties).alerted = true ∧
      (updateCoalitions minParties maxParties).minInputValue = maxParties) := by
  constructor
  · unfold updateCoalitions
    split <;> simp <;> omega
  · intro hlt
    unfold updateCoalitions
    rw [if_pos hlt]
    exact ⟨rfl, rfl, rfl⟩

/-- Witness for C4: with minimum 5 and maximum 3 the request is
suppressed, the alert fires, and the input is clamped to 3. -/
theorem c4_witness :
    (3 : Int) < 5 ∧
    ((updateCoalitions 5 3).request = none ∧
      (updateCoalitions 5 3).alerted = true ∧
      (updateCoalitions 5 3).minInputValue = 3) :=
  ⟨by decide, (c4_rangeValidation 5 3).2 (by decide)⟩

/-- C6: on a roster with unique party names, a zero-seat party is
absent from each of the four constraint dropdowns and from the spectrum
map, a seat-holding party appears in all of them, and every roster
party — zero-seat ones included — has its row in the party table. -/
theorem c6_zeroSeatVisibility (parties : List Party) (p : Party)
    (hmem : p ∈ parties) (hnodup : (parties.map Party.name).Nodup) :
    (p.seats = 0 →
      p.name ∉ (populateDropdowns parties).excludeParty1 ∧
      p.name ∉ (populateDropdowns parties).excludeParty2 ∧
      p.name ∉ (populateDropdowns parties).includeParty1 ∧
      p.name ∉ (populateDropdowns parties).includeParty2 ∧
      p ∉ spectrumParties parties) ∧
    (0 < p.seats →
      p.name ∈ (populateDropdowns parties).excludeParty1 ∧
      p.name ∈ (populateDropdowns parties).excludeParty2 ∧
      p.name ∈ (populateDropdowns parties).includeParty1 ∧
      p.name ∈ (populateDropdowns parties).includeParty2 ∧
      p ∈ spectrumParties parties) ∧
    (p.name, p.seats) ∈ partyTableRows parties := by
  have hinj := List.inj_on_of_nodup_map hnodup
  have hdrop0 : p.seats = 0 → p.name ∉ dropdownOptions parties := by
    intro hz hmemd
    simp only [dropdownOptions, List.mem_map] at hmemd
    obtain ⟨q, hq, hqname⟩ := hmemd
    have hqmem : q ∈ parties := (List.mem_filter.mp hq).1
    have hqpos : 0 < q.seats := by
      have := (List.mem_filter.mp hq).2
      simpa using this
    have hqp : q = p := hinj hqmem hmem hqname
    rw [hqp, hz] at hqpos
    omega
  have hdrop1 : 0 < p.seats → p.name ∈ dropdownOptions parties := by
    intro hz
    simp only [dropdownOptions, List.mem_map]
    exact ⟨p, List.mem_filter.mpr ⟨hmem, by simpa using hz⟩, rfl⟩
  refine ⟨?_, ?_, ?_⟩
  · intro hz
    refine ⟨hdrop0 hz, hdrop0 hz, hdrop0 hz, hdrop0 hz, ?_⟩
    intro hs
    have := (List.mem_filter.mp hs).2
    simp [hz] at this
  · intro hz
    refine ⟨hdrop1 hz, hdrop1 hz, hdrop1 hz, hdrop1 hz, ?_⟩
    refine List.mem_filter.mpr ⟨hmem, ?_⟩
    simp only [decide_eq_true_eq]
    omega
  · exact List.mem_map.mpr ⟨p, hmem, rfl⟩

/-- Witness for C6: a roster with a zero-seat party A and a five-seat
party B; A is shown only in the table, B everywhere. -/
theorem c6_witness :
    ((⟨"A", 0, 0, 0⟩ : Party) ∈ ([⟨"A", 0, 0, 0⟩, ⟨"B", 5, 0, 0⟩] : List Party)) ∧
    ((([⟨"A", 0, 0, 0⟩, ⟨"B", 5, 0, 0⟩] : List Party).map Party.name).Nodup) ∧
    (((⟨"A", 0, 0, 0⟩ : Party).seats = 0 →
      (⟨"A", 0, 0, 0⟩ : Party).name
        ∉ (populateDropdowns [⟨"A", 0, 0, 0⟩, ⟨"B", 5, 0, 0⟩]).excludeParty1 ∧
      (⟨"A", 0, 0, 0⟩ : Party).name
        ∉ (populateDropdowns [⟨"A", 0, 0, 0⟩, ⟨"B", 5, 0, 0⟩]).excludeParty2 ∧
      (⟨"A", 0, 0, 0⟩ : Party).name
        ∉ (populateDropdowns [⟨"A", 0, 0, 0⟩, ⟨"B", 5, 0, 0⟩]).includeParty1 ∧
      (⟨"A", 0, 0, 0⟩ : Party).name
        ∉ (populateDropdowns [⟨"A", 0, 0, 0⟩, ⟨"B", 5, 0, 0⟩]).includeParty2 ∧
      (⟨"A", 0, 0, 0⟩ : Party) ∉ spectrumParties [⟨"A", 0, 0, 0⟩, ⟨"B", 5, 0, 0⟩]) ∧
    (0 < (⟨"A", 0, 0, 0⟩ : Party).seats →
      (⟨"A", 0, 0, 0⟩ : Party).name
        ∈ (populateDropdowns [⟨"A", 0, 0, 0⟩, ⟨"B", 5, 0, 0⟩]).excludeParty1 ∧
      (⟨"A", 0, 0, 0⟩ : Party).name
        ∈ (populateDropdowns [⟨"A", 0, 0, 0⟩, ⟨"B", 5, 0, 0⟩]).excludeParty2 ∧
      (⟨"A", 0, 0, 0⟩ : Party).name
        ∈ (populateDropdowns [⟨"A", 0, 0, 0⟩, ⟨"B", 5, 0, 0⟩]).includeParty1 ∧
      (⟨"A", 0, 0, 0⟩ : Party).name
        ∈ (populateDropdowns [⟨"A", 0, 0, 0⟩, ⟨"B", 5, 0, 0⟩]).includeParty2 ∧
      (⟨"A", 0, 0, 0⟩ : Party) ∈ spectrumParties [⟨"A", 0, 0, 0⟩, ⟨"B", 5, 0, 0⟩]) ∧
    ((⟨"A", 0, 0, 0⟩ : Party).name, (⟨"A", 0, 0, 0⟩ : Party).seats)
      ∈ partyTableRows [⟨"A", 0, 0, 0⟩, ⟨"B", 5, 0, 0⟩]) :=
  ⟨by decide, by decide,
    c6_zeroSeatVisibility [⟨"A", 0, 0, 0⟩, ⟨"B", 5, 0, 0⟩] ⟨"A", 0, 0, 0⟩
      (by decide) (by decide)⟩

/-- C7: when the server acknowledges a drag release or a dataset
switch, the client replaces its whole local roster with the roster of
the response and re-invokes `updateCoalitions`, so following coalition
displays are queried against the updated positions. -/
theorem c7_rosterReplacedAndRequeried
    (drag : DragState) (party : Party) (width height mouseX mouseY : ℚ)
    (serverPos : PositionUpdateRequest → RosterResponse)
    (serverPoll : String → RosterResponse)
    (poll : String) (s : ClientState)
    (hdrag : drag.isDragging = true) (hparty : drag.dragParty = some party)
    (hpos : (serverPos
      (mouseUpRequest party.name width height mouseX mouseY)).success = true)
    (hpoll : poll ≠ "")
    (hpollResp : (serverPoll poll).success = true) :
    (handleMouseUp drag width height mouseX mouseY serverPos s).1.parties
      = (serverPos (mouseUpRequest party.name width height mouseX mouseY)).parties ∧
    (handleMouseUp drag width height mouseX mouseY serverPos s).2 = true ∧
    (changePoll poll serverPoll s).1.parties = (serverPoll poll).parties ∧
    (changePoll poll serverPoll s).2 = true := by
  unfold handleMouseUp changePoll
  rw [hdrag, hparty]
  dsimp only
  rw [if_pos hpos, if_neg hpoll, if_pos hpollResp]
  exact ⟨rfl, rfl, rfl, rfl⟩

/-- Witness for C7: a concrete drag of party A with a server answering
a one-party roster, and a switch to the poll named P2. -/
theorem c7_witness :
    ((⟨true, some ⟨"A", 10, 0, 0⟩⟩ : DragState).isDragging = true) ∧
    ((⟨true, some ⟨"A", 10, 0, 0⟩⟩ : DragState).dragParty = some ⟨"A", 10, 0, 0⟩) ∧
    (((fun _ => (⟨true, [⟨"B", 20, 0, 0⟩]⟩ : RosterResponse)) :
        PositionUpdateRequest → RosterResponse)
      (mouseUpRequest (Party.name ⟨"A", 10, 0, 0⟩) 200 200 60 60)).success = true ∧
    ("P2" : String) ≠ "" ∧
    (((fun _ => (⟨true, [⟨"B", 20, 0, 0⟩]⟩ : RosterResponse)) :
        String → RosterResponse) "P2").success = true ∧
    ((handleMouseUp ⟨true, some ⟨"A", 10, 0, 0⟩⟩ 200 200 60 60
        (fun _ => ⟨true, [⟨"B", 20, 0, 0⟩]⟩) ⟨[]⟩).1.parties
      = (((fun _ => (⟨true, [⟨"B", 20, 0, 0⟩]⟩ : RosterResponse)) :
          PositionUpdateRequest → RosterResponse)
          (mouseUpRequest (Party.name ⟨"A", 10, 0, 0⟩) 200 200 60 60)).parties) ∧
    (handleMouseUp ⟨true, some ⟨"A", 10, 0, 0⟩⟩ 200 200 60 60
        (fun _ => ⟨true, [⟨"B", 20, 0, 0⟩]⟩) ⟨[]⟩).2 = true ∧
    ((changePoll "P2" (fun _ => ⟨true, [⟨"B", 20, 0, 0⟩]⟩) ⟨[]⟩).1.parties
      = (((fun _ => (⟨true, [⟨"B", 20, 0, 0⟩]⟩ : RosterResponse)) :
          String → RosterResponse) "P2").parties) ∧
    (changePoll "P2" (fun _ => ⟨true, [⟨"B", 20, 0, 0⟩]⟩) ⟨[]⟩).2 = true := by
  refine ⟨rfl, rfl, rfl, by decide, rfl, ?_⟩
  have h := c7_rosterReplacedAndRequeried ⟨true, some ⟨"A", 10, 0, 0⟩⟩
    ⟨"A", 10, 0, 0⟩ 200 200 60 60
    (fun _ => ⟨true, [⟨"B", 20, 0, 0⟩]⟩) (fun _ => ⟨true, [⟨"B", 20, 0, 0⟩]⟩)
    "P2" ⟨[]⟩ rfl rfl rfl (by decide) rfl
  exact ⟨h.1, h.2.1, h.2.2.1, h.2.2.2⟩

/-- Helper: folding seat addition from an arbitrary accumulator. -/
theorem foldl_addSeats (l : List Party) (n : Nat) :
    l.foldl (fun sum p => sum + p.seats) n = n + (l.map Party.seats).sum := by
  induction l generalizing n with
  | nil => simp
  | cons q rest ih =>
    simp only [List.foldl_cons, List.map_cons, List.sum_cons, ih]
    omega

/-- Helper: the filtered seat sum equals the guarded sum over the whole
roster. -/
theorem filteredSeatSum (l : List Party) (c : List String) :
    ((l.filter (fun p => c.contains p.name)).map Party.seats).sum
      = (l.map (fun p => if p.name ∈ c then p.seats else 0)).sum := by
  induction l with
  | nil => rfl
  | cons q rest ih =>
    by_cases hq : q.name ∈ c
    · have hc : c.contains q.name = true := by simpa using hq
      rw [List.filter_cons_of_pos (p := fun r : Party => c.contains r.name) hc,
        List.map_cons, List.sum_cons, ih, List.map_cons, List.sum_cons,
        if_pos hq]
    · have hc : ¬ c.contains q.name = true := by simpa using hq
      rw [List.filter_cons_of_neg (p := fun r : Party => c.contains r.name) hc, ih,
        List.map_cons, List.sum_cons, if_neg hq, Nat.zero_add]

/-- C8: the coalition seat count `updateVisualization` computes is the
exact sum of the seats of precisely the roster parties whose names are
checked, and zero when nothing is checked. -/
theorem c8_seatSumExact (parties : List Party) (checked : List String) :
    coalitionSeats parties checked
      = (parties.map (fun p => if p.name ∈ checked then p.seats else 0)).sum ∧
    coalitionSeats parties [] = 0 := by
  have main : ∀ c : List String, coalitionSeats parties c
      = (parties.map (fun p => if p.name ∈ c then p.seats else 0)).sum := by
    intro c
    unfold coalitionSeats
    rw [foldl_addSeats, Nat.zero_add, filteredSeatSum]
  refine ⟨main checked, ?_⟩
  rw [main []]
  simp

/-- Helper: the pixel clamp lands in `[50, bound - 50]` whenever the
container dimension exceeds 100. -/
theorem constrainPix_bounds (bound v : ℚ) (h : 100 < bound) :
    50 ≤ constrainPix bound v ∧ constrainPix bound v ≤ bound - 50 := by
  unfold constrainPix
  refine ⟨le_max_left _ _, max_le (by linarith) (min_le_left _ _)⟩

/-- Helper: the pixel clamp is the identity on `[50, bound - 50]`. -/
theorem constrainPix_eq_self (bound v : ℚ) (h1 : 50 ≤ v)
    (h2 : v ≤ bound - 50) : constrainPix bound v = v := by
  unfold constrainPix
  rw [min_eq_right h2, max_eq_right h1]

/-- Helper: the horizontal map position stays inside the padded band. -/
theorem spectrumX_bounds (width e : ℚ) (hw : 100 < width)
    (he1 : -1 ≤ e) (he2 : e ≤ 1) :
    50 ≤ spectrumX width e ∧ spectrumX width e ≤ width - 50 := by
  unfold spectrumX
  have hwpos : (0 : ℚ) ≤ width - 50 * 2 := by linarith
  have h0 : (0 : ℚ) ≤ (e + 1) / 2 := by linarith
  have h1 : (e + 1) / 2 ≤ 1 := by linarith
  have hlo := mul_nonneg h0 hwpos
  have hhi := mul_le_of_le_one_left hwpos h1
  constructor <;> linarith

/-- Helper: the vertical map position stays inside the padded band. -/
theorem spectrumY_bounds (height s : ℚ) (hh : 100 < height)
    (hs1 : -1 ≤ s) (hs2 : s ≤ 1) :
    50 ≤ spectrumY height s ∧ spectrumY height s ≤ height - 50 := by
  unfold spectrumY
  have hhpos : (0 : ℚ) ≤ height - 50 * 2 := by linarith
  have h0 : (0 : ℚ) ≤ (-s + 1) / 2 := by linarith
  have h1 : (-s + 1) / 2 ≤ 1 := by linarith
  have hlo := mul_nonneg h0 hhpos
  have hhi := mul_le_of_le_one_left hhpos h1
  constructor <;> linarith

/-- C9: feeding the pixel position `updateSpectrum` assigns to a party
through the pixel-to-coordinate conversion of `handleMouseUp`, with the
same container dimensions and the shared padding of 50, returns exactly
the original economic and social values. -/
theorem c9_pixelRoundTrip (name : String) (width height e s : ℚ)
    (hw : 100 < width) (hh : 100 < height)
    (he1 : -1 ≤ e) (he2 : e ≤ 1) (hs1 : -1 ≤ s) (hs2 : s ≤ 1) :
    (mouseUpRequest name width height
      (spectrumX width e) (spectrumY height s)).economic = e ∧
    (mouseUpRequest name width height
      (spectrumX width e) (spectrumY height s)).social = s := by
  obtain ⟨hx1, hx2⟩ := spectrumX_bounds width e hw he1 he2
  obtain ⟨hy1, hy2⟩ := spectrumY_bounds height s hh hs1 hs2
  have hwne : width - 50 * 2 ≠ 0 := by
    intro h0
    rw [sub_eq_zero] at h0
    rw [h0] at hw
    norm_num at hw
  have hhne : height - 50 * 2 ≠ 0 := by
    intro h0
    rw [sub_eq_zero] at h0
    rw [h0] at hh
    norm_num at hh
  unfold mouseUpRequest
  rw [constrainPix_eq_self _ _ hx1 hx2, constrainPix_eq_self _ _ hy1 hy2]
  unfold spectrumX spectrumY
  constructor
  · dsimp only
    field_simp
    ring
  · dsimp only
    field_simp
    ring

/-- Witness for C9: a 300 by 200 container and a party at the corner
position (1, -1) round-trips exactly. -/
theorem c9_witness :
    (100 : ℚ) < 300 ∧ (100 : ℚ) < 200 ∧
    (-1 : ℚ) ≤ 1 ∧ (1 : ℚ) ≤ 1 ∧ (-1 : ℚ) ≤ -1 ∧ (-1 : ℚ) ≤ 1 ∧
    (mouseUpRequest "A" 300 200
      (spectrumX 300 1) (spectrumY 200 (-1))).economic = 1 ∧
    (mouseUpRequest "A" 300 200
      (spectrumX 300 1) (spectrumY 200 (-1))).social = -1 :=
  ⟨by decide, by decide, by decide, by decide, by decide, by decide,
    (c9_pixelRoundTrip "A" 300 200 1 (-1) (by decide) (by decide)
      (by decide) (by decide) (by decide) (by decide)).1,
    (c9_pixelRoundTrip "A" 300 200 1 (-1) (by decide) (by decide)
      (by decide) (by decide) (by decide) (by decide)).2⟩

/-- C10: whatever the release position, once the container is larger
than 100 pixels in each dimension the coordinates `handleMouseUp` posts
to `/api/update_position` lie in `[-1, 1]`, because the release pixel
is clamped into the padded band before conversion. -/
theorem c10_postedCoordinatesInRange (name : String)
    (width height mouseX mouseY : ℚ) (hw : 100 < width) (hh : 100 < height) :
    (-1 ≤ (mouseUpRequest name width height mouseX mouseY).economic ∧
      (mouseUpRequest name width height mouseX mouseY).economic ≤ 1) ∧
    (-1 ≤ (mouseUpRequest name width height mouseX mouseY).social ∧
      (mouseUpRequest name width height mouseX mouseY).social ≤ 1) := by
  have hwpos : (0 : ℚ) < width - 50 * 2 := by linarith
  have hhpos : (0 : ℚ) < height - 50 * 2 := by linarith
  obtain ⟨hx1, hx2⟩ := constrainPix_bounds width mouseX hw
  obtain ⟨hy1, hy2⟩ := constrainPix_bounds height mouseY hh
  have hqx1 : 0 ≤ (constrainPix width mouseX - 50) / (width - 50 * 2) :=
    div_nonneg (by linarith) (le_of_lt hwpos)
  have hqx2 : (constrainPix width mouseX - 50) / (width - 50 * 2) ≤ 1 :=
    (div_le_one hwpos).mpr (by linarith)
  have hqy1 : 0 ≤ (constrainPix height mouseY - 50) / (height - 50 * 2) :=
    div_nonneg (by linarith) (le_of_lt hhpos)
  have hqy2 : (constrainPix height mouseY - 50) / (height - 50 * 2) ≤ 1 :=
    (div_le_one hhpos).mpr (by linarith)
  unfold mouseUpRequest
  dsimp only
  refine ⟨⟨?_, ?_⟩, ?_, ?_⟩ <;> linarith

/-- Witness for C10: a release far outside a 200 by 200 container still
posts coordinates inside the unit square. -/
theorem c10_witness :
    (100 : ℚ) < 200 ∧
    ((-1 ≤ (mouseUpRequest "A" 200 200 (-5000) 9999).economic ∧
        (mouseUpRequest "A" 200 200 (-5000) 9999).economic ≤ 1) ∧
      (-1 ≤ (mouseUpRequest "A" 200 200 (-5000) 9999).social ∧
        (mouseUpRequest "A" 200 200 (-5000) 9999).social ≤ 1)) :=
  ⟨by decide,
    c10_postedCoordinatesInRange "A" 200 200 (-5000) 9999
      (by decide) (by decide)⟩

end CoalitionBuilder
